import Mathlib

/-!
Verification of the repository-state synchronization and classification
engine of `overall` (a GitHub repository tracker), shallowly embedded in
Lean 4.  Definitions are translated from the Rust sources under
`overall-cli/src` and `wasm-ui/src`; where a definition depends on the
SQLite schema (`storage/schema.sql`, which is not part of the source tree
available here), the relevant key constraints are modelled from the
specification and marked as such in the doc comments.
-/

namespace Overall

/-- Branch review-state label (`models/mod.rs`, enum `BranchStatus`). -/
inductive BranchStatus where
  | ReadyForPR
  | InReview
  | ReadyToMerge
  | NeedsUpdate
  | HasConflicts
deriving DecidableEq, Repr

/-- Pull-request state (`models/mod.rs`, enum `PRState`). -/
inductive PRState where
  | Open
  | Closed
  | Merged
deriving DecidableEq, Repr

/-- Branch record (`models/mod.rs`, struct `Branch`).  Timestamps are
modelled as integers; `u32` counters as `Nat` (no arithmetic is ever
performed on them, so no overflow is possible). -/
structure Branch where
  id : Int
  repo_id : String
  name : String
  sha : String
  ahead_by : Nat
  behind_by : Nat
  status : BranchStatus
  last_commit_date : Int
deriving DecidableEq, Repr

/-- Pull-request record (`models/mod.rs`, struct `PullRequest`). -/
structure PullRequest where
  id : Int
  repo_id : String
  branch_id : Option Int
  number : Nat
  state : PRState
  title : String
  created_at : Int
  updated_at : Int
deriving DecidableEq, Repr

/-- Local working-copy scan result (`models/mod.rs`, struct
`LocalRepoStatus`). -/
structure LocalRepoStatus where
  id : Int
  repo_id : String
  local_path : String
  current_branch : Option String
  uncommitted_files : Nat
  unpushed_commits : Nat
  behind_commits : Nat
  is_dirty : Bool
  last_checked : Int
deriving DecidableEq, Repr

/-- Branch status classifier (`github/commands.rs`,
`classify_branch_status`, lines 473-500).  Note the PR lookup: the source
takes the first PR whose `branch_id` field is `None`
(`prs.iter().find(|pr| pr.branch_id.is_none())`), even though its comment
speaks of matching by branch name. -/
def classify_branch_status (branch : Branch) (prs : List PullRequest)
    (default_branch : String) : BranchStatus :=
  if branch.name = default_branch then
    .ReadyForPR
  else
    match prs.find? (fun pr => pr.branch_id.isNone) with
    | some pr =>
      if pr.state = .Open then
        if branch.behind_by > 0 then .NeedsUpdate else .InReview
      else if pr.state = .Merged then .ReadyForPR
      else .ReadyForPR
    | none => .ReadyForPR

/-- The `repo_groups` junction table: one row per membership of repository
`repo_id` (first component) in group `group_id` (second component).
Modelled from the spec: `storage/schema.sql` is not in the available
source tree; per the spec the table is a plain junction table keyed by the
`(repo_id, group_id)` pair, with *no* one-group-per-repository
multiplicity constraint ("enforced by application logic, not a raw
multiplicity constraint").  The `added_at` timestamp column does not
affect membership and is omitted. -/
abbrev RepoGroups := List (String × Int)

/-- `storage/mod.rs`, `add_repo_to_group` (lines 280-286):
`INSERT OR IGNORE INTO repo_groups (repo_id, group_id, added_at)` —
under the `(repo_id, group_id)` key this inserts the row unless the exact
pair is already present. -/
def add_repo_to_group (repo_id : String) (group_id : Int)
    (tbl : RepoGroups) : RepoGroups :=
  if (repo_id, group_id) ∈ tbl then tbl else tbl ++ [(repo_id, group_id)]

/-- `storage/mod.rs`, `remove_repo_from_all_groups` (lines 394-400):
`DELETE FROM repo_groups WHERE repo_id = ?1`. -/
def remove_repo_from_all_groups (repo_id : String)
    (tbl : RepoGroups) : RepoGroups :=
  tbl.filter (fun m => m.1 ≠ repo_id)

/-- `storage/mod.rs`, `move_repo_to_group` (lines 379-392): delete all
rows for the repository, then insert the target membership. -/
def move_repo_to_group (repo_id : String) (target_group_id : Int)
    (tbl : RepoGroups) : RepoGroups :=
  tbl.filter (fun m => m.1 ≠ repo_id) ++ [(repo_id, target_group_id)]

/-- Repository `r` belongs to at most one group in `tbl`. -/
def inAtMostOneGroup (r : String) (tbl : RepoGroups) : Prop :=
  ∀ g g' : Int, (r, g) ∈ tbl → (r, g') ∈ tbl → g = g'

/-- A group-membership operation of the Data Store. -/
inductive GroupOp where
  | add (repo_id : String) (group_id : Int)
  | move (repo_id : String) (group_id : Int)
  | remove (repo_id : String)
deriving DecidableEq, Repr

/-- Apply one group-membership operation. -/
def applyGroupOp (op : GroupOp) (tbl : RepoGroups) : RepoGroups :=
  match op with
  | .add r g => add_repo_to_group r g tbl
  | .move r g => move_repo_to_group r g tbl
  | .remove r => remove_repo_from_all_groups r tbl

/-- Apply a sequence of group-membership operations, left to right. -/
def applyGroupOps (ops : List GroupOp) (tbl : RepoGroups) : RepoGroups :=
  ops.foldl (fun t op => applyGroupOp op t) tbl

/-- Every `add` in the sequence that targets `R` is issued in a state
where `R` is ungrouped or already a member of the target group. -/
def safeSeq (R : String) (tbl : RepoGroups) : List GroupOp → Prop
  | [] => True
  | op :: rest =>
      (∀ g, op = .add R g → ((∀ g', (R, g') ∉ tbl) ∨ (R, g) ∈ tbl)) ∧
      safeSeq R (applyGroupOp op tbl) rest

/-- The `branches` table.  Rows carry the synthetic rowid in `id`;
`nextId` models SQLite's monotone rowid allocation
(`last_insert_rowid`). -/
structure BranchTable where
  rows : List Branch
  nextId : Int
deriving Repr

/-- `storage/mod.rs`, `save_branch` (lines 83-98): `INSERT OR REPLACE
INTO branches (repo_id, name, sha, ahead_by, behind_by, status,
last_commit_date)` — the `id` column is not supplied, so the inserted row
receives a fresh rowid.  The conflict target is the `(repo_id, name)`
uniqueness of `branches`, modelled from the spec (`schema.sql` is not in
the available tree; the spec gives Branch identity as "synthetic numeric
id, unique `(repo_id, name)`"): a conflicting row is deleted and the new
row inserted. -/
def save_branch (branch : Branch) (tbl : BranchTable) : BranchTable :=
  { rows := tbl.rows.filter
      (fun r => ¬(r.repo_id = branch.repo_id ∧ r.name = branch.name)) ++
      [{ branch with id := tbl.nextId }],
    nextId := tbl.nextId + 1 }

/-- `storage/mod.rs`, `clear_branches_for_repo` (lines 177-181):
`DELETE FROM branches WHERE repo_id = ?1`. -/
def clear_branches_for_repo (repo_id : String) (tbl : BranchTable) :
    BranchTable :=
  { tbl with rows := tbl.rows.filter (fun r => r.repo_id ≠ repo_id) }

/-- `storage/mod.rs`, `get_branches_for_repo` (lines 100-127):
`SELECT ... FROM branches WHERE repo_id = ?1 ORDER BY name`. -/
def get_branches_for_repo (repo_id : String) (tbl : BranchTable) :
    List Branch :=
  (tbl.rows.filter (fun r => r.repo_id = repo_id)).mergeSort
    (fun a b => a.name ≤ b.name)

/-- The per-repository branch replacement performed by the Scan pipeline
(`main.rs` lines 111-123): clear old branches for the repository, then
save each fetched branch. -/
def replaceBranches (repo_id : String) (branches : List Branch)
    (tbl : BranchTable) : BranchTable :=
  branches.foldl (fun t b => save_branch b t)
    (clear_branches_for_repo repo_id tbl)

/-- All columns of a branch row except the synthetic rowid. -/
def branchData (b : Branch) :
    String × String × String × Nat × Nat × BranchStatus × Int :=
  (b.repo_id, b.name, b.sha, b.ahead_by, b.behind_by, b.status,
   b.last_commit_date)

/-- Whether the character list `pat` occurs at the head of `s`. -/
def charsLeadWith : List Char → List Char → Bool
  | _, [] => true
  | [], _ :: _ => false
  | c :: cs, p :: ps => c = p && charsLeadWith cs ps

/-- Whether the character list `pat` occurs anywhere in `s` (Rust
`str::contains` with a string pattern). -/
def charsHave : List Char → List Char → Bool
  | [], pat => pat.isEmpty
  | c :: rest, pat => charsLeadWith (c :: rest) pat || charsHave rest pat

/-- Rust `str::contains(pat)`. -/
def strHas (s pat : String) : Bool :=
  charsHave s.toList pat.toList

/-- Rust `str::starts_with(pat)`. -/
def strLeadsWith (s pat : String) : Bool :=
  charsLeadWith s.toList pat.toList

/-- Rust `str::trim`: drop leading and trailing whitespace. -/
def strTrim (s : String) : String :=
  ⟨((s.toList.dropWhile Char.isWhitespace).reverse.dropWhile
      Char.isWhitespace).reverse⟩

/-- Split a character list at every character satisfying `p`; always
returns at least one (possibly empty) piece. -/
def splitOnP (p : Char → Bool) : List Char → List (List Char)
  | [] => [[]]
  | c :: rest =>
    let ps := splitOnP p rest
    if p c then [] :: ps else (c :: ps.headI) :: ps.tail

/-- Strip one trailing carriage return (Rust `str::lines` drops a final
`\r` from each line). -/
def stripCr (l : List Char) : List Char :=
  if l.getLast? = some '\r' then l.dropLast else l

/-- Rust `str::lines`: split on `\n`, dropping the empty piece after a
trailing newline, stripping a final `\r` from each line. -/
def rustLines (s : String) : List String :=
  match s.toList with
  | [] => []
  | l =>
    let parts := splitOnP (fun c => c = '\n') l
    let parts := if l.getLast? = some '\n' then parts.dropLast else parts
    parts.map (fun cs => ⟨stripCr cs⟩)

/-- Rust `str::split_whitespace`: split on whitespace, dropping empty
pieces. -/
def splitWs (s : String) : List String :=
  ((splitOnP Char.isWhitespace s.toList).filter (fun p => p ≠ [])).map
    (fun cs => ⟨cs⟩)

/-- Parse a decimal digit string. -/
def digitsToNat? (l : List Char) : Option Nat :=
  if l ≠ [] ∧ l.all Char.isDigit then
    some (l.foldl (fun n c => n * 10 + (c.toNat - 48)) 0)
  else none

/-- Rust `s.parse::<u32>().unwrap_or(0)` (the sources only feed it short
git count strings, so the `u32` range plays no role and a sign prefix
never occurs). -/
def parseNatD (s : String) : Nat :=
  (digitsToNat? s.toList).getD 0

/-- Captured output of one external command invocation (Rust
`std::process::Output`): exit status success flag, stdout and stderr
decoded as text.  Spawn failures and invalid UTF-8 are handled before any
logic the claims are about and are kept out of this record; where they
matter the embedding wraps `CmdOut` in `Except`. -/
structure CmdOut where
  success : Bool
  stdout : String
  stderr : String
deriving DecidableEq, Repr

/-- `github/commands.rs`, `create_pull_request` (lines 504-568).  The
external `gh pr create` invocation is abstracted by its captured output
`out`; the title/body arguments only shape the command line and are kept
for the signature's sake. -/
def create_pull_request (repo_id branch_name : String)
    (_title _body : Option String) (out : CmdOut) : Except String String :=
  if ¬ strHas repo_id "/" then
    .error ("Invalid repo_id format: " ++ repo_id ++ ". Expected owner/repo")
  else if out.success then
    .ok (strTrim out.stdout)
  else if strHas out.stderr "already exists" then
    match (rustLines out.stderr).getLast? with
    | some url_line =>
      if strLeadsWith (strTrim url_line) "https://github.com" then
        .ok (strTrim url_line)
      else
        .error ("Failed to create PR for branch " ++ branch_name ++ ": " ++
          out.stderr)
    | none =>
      .error ("Failed to create PR for branch " ++ branch_name ++ ": " ++
        out.stderr)
  else
    .error ("Failed to create PR for branch " ++ branch_name ++ ": " ++
      out.stderr)

/-- A branch as listed by the GitHub API (`github/commands.rs`,
`GhBranch`): name and head commit SHA. -/
structure GhBranch where
  name : String
  sha : String
deriving DecidableEq, Repr

/-- The per-branch conversion loop of `github/commands.rs`,
`fetch_branches` (lines 192-221), written as explicit recursion over the
listed branches with the iteration index (`enumerate()`) threaded
through.  The two inner gateway calls are abstracted by oracles:
`commitDate sha` models `fetch_commit_details` (its error propagates via
`?` and aborts the fetch), `cmp name` models
`compare_branches repo_id default_branch name` (its error is swallowed:
`Err(_) => (0, 0)`).  The default branch is compared to nothing and gets
`(0, 0)` outright, and every produced branch carries the hardcoded status
`ReadyForPR` ("Will be updated in Phase 1.3").  This first definition is
the ahead/behind computation of lines 200-208. -/
def branch_divergence (default_branch : String)
    (cmp : String → Except String (Nat × Nat)) (name : String) :
    Nat × Nat :=
  if name = default_branch then (0, 0)
  else
    match cmp name with
    | .ok p => p
    | .error _ => (0, 0)

/-- The per-branch recursion of `fetch_branches` (lines 192-221), with
the iteration index (`enumerate()`) threaded through; see the doc comment
on `branch_divergence` for the abstracted gateway calls. -/
def fetch_branches_go (repo_id default_branch : String)
    (commitDate : String → Except String Int)
    (cmp : String → Except String (Nat × Nat)) :
    Nat → List GhBranch → Except String (List Branch)
  | _, [] => .ok []
  | idx, gb :: rest =>
    match commitDate gb.sha with
    | .error e => .error e
    | .ok last_commit_date =>
      match fetch_branches_go repo_id default_branch commitDate cmp
          (idx + 1) rest with
      | .error e => .error e
      | .ok tail =>
        let div := branch_divergence default_branch cmp gb.name
        .ok ({ id := idx, repo_id := repo_id, name := gb.name,
               sha := gb.sha, ahead_by := div.1,
               behind_by := div.2, status := .ReadyForPR,
               last_commit_date := last_commit_date } :: tail)

/-- `fetch_branches` entry point: the branch listing and default-branch
resolution (whose failures abort the whole call before this loop) are
abstracted into the `ghBranches` and `default_branch` arguments. -/
def fetch_branches (repo_id default_branch : String)
    (commitDate : String → Except String Int)
    (cmp : String → Except String (Nat × Nat))
    (ghBranches : List GhBranch) : Except String (List Branch) :=
  fetch_branches_go repo_id default_branch commitDate cmp 0 ghBranches

/-- A pull request as listed by `gh pr list` (`github/commands.rs`,
`GhPR`); timestamps arrive already parsed. -/
structure GhPR where
  number : Nat
  state : String
  title : String
  created_at : Int
  updated_at : Int
  head_ref_name : String
deriving DecidableEq, Repr

/-- The conversion loop of `github/commands.rs`, `fetch_pull_requests`
(lines 446-468): every produced pull request has `branch_id := none`
("Will be matched later" — it never is), and the state string is mapped
with fallback `Closed`. -/
def fetch_pull_requests_go (repo_id : String) :
    Nat → List GhPR → List PullRequest
  | _, [] => []
  | idx, gp :: rest =>
    { id := idx, repo_id := repo_id, branch_id := none,
      number := gp.number,
      state :=
        if gp.state = "OPEN" then .Open
        else if gp.state = "CLOSED" then .Closed
        else if gp.state = "MERGED" then .Merged
        else .Closed,
      title := gp.title, created_at := gp.created_at,
      updated_at := gp.updated_at } ::
      fetch_pull_requests_go repo_id (idx + 1) rest

/-- `fetch_pull_requests` entry point. -/
def fetch_pull_requests (repo_id : String) (ghPrs : List GhPR) :
    List PullRequest :=
  fetch_pull_requests_go repo_id 0 ghPrs

/-- The `pull_requests` table, analogous to `BranchTable`. -/
structure PullRequestTable where
  rows : List PullRequest
  nextId : Int
deriving Repr

/-- `storage/mod.rs`, `save_pull_request` (lines 129-144):
`INSERT OR REPLACE INTO pull_requests ...` without the `id` column; the
conflict target is the logical `(repo_id, number)` key of the table
(modelled from the spec: "logically keyed by `(repo_id, number)`";
`schema.sql` is not in the available tree). -/
def save_pull_request (pr : PullRequest) (tbl : PullRequestTable) :
    PullRequestTable :=
  { rows := tbl.rows.filter
      (fun r => ¬(r.repo_id = pr.repo_id ∧ r.number = pr.number)) ++
      [{ pr with id := tbl.nextId }],
    nextId := tbl.nextId + 1 }

/-- `storage/mod.rs`, `clear_pull_requests_for_repo` (lines 183-189). -/
def clear_pull_requests_for_repo (repo_id : String)
    (tbl : PullRequestTable) : PullRequestTable :=
  { tbl with rows := tbl.rows.filter (fun r => r.repo_id ≠ repo_id) }

/-- PR replacement as performed by the Scan pipeline (`main.rs` lines
162-176). -/
def replacePullRequests (repo_id : String) (prs : List PullRequest)
    (tbl : PullRequestTable) : PullRequestTable :=
  prs.foldl (fun t p => save_pull_request p t)
    (clear_pull_requests_for_repo repo_id tbl)

/-- The per-repository Scan pipeline of `main.rs` (lines 95-184) with the
gateway results already fetched: branches are persisted wholesale, then
pull requests.  Commit fetching (which touches only the `commits` table)
is omitted.  Note what is *absent*: the pipeline never invokes
`classify_branch_status`; each branch row is saved with the status
carried from `fetch_branches`, i.e. the hardcoded `ReadyForPR`. -/
def scan_repo (repo_id : String) (branches : List Branch)
    (prs : List PullRequest) (bt : BranchTable) (pt : PullRequestTable) :
    BranchTable × PullRequestTable :=
  (replaceBranches repo_id branches bt,
   replacePullRequests repo_id prs pt)

/-- `local_git.rs`, `extract_repo_id` (lines 43-58): the repository
identity is `owner/name` built from the last two path components.  A path
is modelled as its component list (components assumed valid UTF-8; the
source's `to_str()?` conversion).  The source indexes
`components[len - 2]` and `components[len - 1]` under a `len >= 2` guard;
matching on the reversed list performs the same selection. -/
def extract_repo_id (components : List String) : Option String :=
  match components.reverse with
  | name :: owner :: _ => some (owner ++ "/" ++ name)
  | _ => none

/-- `local_git.rs`, `get_current_branch` (lines 61-78): `git rev-parse
--abbrev-ref HEAD`; a failing exit status yields `None` (current branch
unknown), success yields the trimmed stdout.  The oracle argument is the
captured output of a command that ran; a spawn failure or non-UTF-8
output makes the Rust function return `Err` before any logic the claims
concern and is outside the model. -/
def get_current_branch (o : CmdOut) : Option String :=
  if o.success then some (strTrim o.stdout) else none

/-- `local_git.rs`, `count_uncommitted_files` (lines 81-96): `git status
--porcelain`; a failing exit status yields 0, otherwise the number of
non-empty stdout lines. -/
def count_uncommitted_files (o : CmdOut) : Nat :=
  if o.success then ((rustLines o.stdout).filter (fun l => l ≠ "")).length
  else 0

/-- `local_git.rs`, `get_ahead_behind` (lines 100-153):
`upstreamOf branch` models `git rev-parse --abbrev-ref
branch@{upstream}` — a failing exit status means no upstream is
configured and yields `(0, 0)`.  Otherwise `revListOf upstream` models
`git rev-list --left-right --count branch...upstream`: a failing status
yields `(0, 0)`; its stdout is trimmed and split on whitespace, and
anything but exactly two pieces yields `(0, 0)`; each piece parses with
fallback 0. -/
def get_ahead_behind (branch : String)
    (upstreamOf revListOf : String → CmdOut) : Nat × Nat :=
  let upstream_output := upstreamOf branch
  if ¬ upstream_output.success then (0, 0)
  else
    let output := revListOf (strTrim upstream_output.stdout)
    if ¬ output.success then (0, 0)
    else
      match splitWs (strTrim output.stdout) with
      | [a, b] => (parseNatD a, parseNatD b)
      | _ => (0, 0)

/-- `local_git.rs`, `get_repo_status` (lines 156-182).  `path_str` models
`repo_path.to_string_lossy()` and `now` models `Utc::now()`; the command
outputs are the oracles described above.  The only error path left in
the model is the failed identity extraction. -/
def get_repo_status (components : List String) (path_str : String)
    (branchOut statusOut : CmdOut)
    (upstreamOf revListOf : String → CmdOut) (now : Int) :
    Except String LocalRepoStatus :=
  match extract_repo_id components with
  | none => .error "Failed to extract repo ID"
  | some repo_id =>
    let current_branch := get_current_branch branchOut
    let uncommitted_files := count_uncommitted_files statusOut
    let div :=
      match current_branch with
      | some branch => get_ahead_behind branch upstreamOf revListOf
      | none => (0, 0)
    .ok { id := 0, repo_id := repo_id, local_path := path_str,
          current_branch := current_branch,
          uncommitted_files := uncommitted_files,
          unpushed_commits := div.1, behind_commits := div.2,
          is_dirty := decide (uncommitted_files > 0) ||
            decide (div.1 > 0),
          last_checked := now }

/-- The `local_repo_status` table as a row list.
`storage/mod.rs`, `save_local_repo_status` (lines 452-469):
`INSERT OR REPLACE INTO local_repo_status ...` without the `id` column;
the conflict target is the uniqueness of `repo_id`, modelled from the
spec ("Keyed by repository identity; replaced wholesale on each local
scan"; `schema.sql` is not in the available tree).  The untouched
synthetic id column is stored as given. -/
def save_local_repo_status (s : LocalRepoStatus)
    (tbl : List LocalRepoStatus) : List LocalRepoStatus :=
  tbl.filter (fun r => r.repo_id ≠ s.repo_id) ++ [s]

/-- `storage/mod.rs`, `get_local_repo_status` (lines 471-502): the first
row with the repository id. -/
def get_local_repo_status (repo_id : String)
    (tbl : List LocalRepoStatus) : Option LocalRepoStatus :=
  (tbl.filter (fun r => r.repo_id = repo_id)).head?

/-! Concrete sample values used by the theorems below. -/

/-- Sample branch used by concrete evaluations. -/
def branchMain : Branch :=
  { id := 0, repo_id := "acme/widgets", name := "main", sha := "s0",
    ahead_by := 0, behind_by := 0, status := .ReadyForPR,
    last_commit_date := 0 }

/-- A `gh pr create` failure output reporting an existing PR. -/
def outAlreadyExists : CmdOut :=
  { success := false, stdout := "",
    stderr := "a pull request for branch feat-x into branch main already exists:\nhttps://github.com/acme/widgets/pull/7" }

/-- GitHub branch listing for the C2 failing input. -/
def ghBranchesC2 : List GhBranch := [⟨"feat-x", "sha1"⟩]

/-- Pull requests as fetched for the C2 failing input: one open PR,
whose `branch_id` is `none` as `fetch_pull_requests` always produces. -/
def prsC2 : List PullRequest :=
  fetch_pull_requests "acme/widgets"
    [⟨7, "OPEN", "Add feature", 1, 2, "feat-x"⟩]

/-- The branch produced by `fetch_branches` on the C2 input: ahead 2,
behind 5, status hardcoded `ReadyForPR`. -/
def branchesC2fetched : List Branch :=
  [⟨0, "acme/widgets", "feat-x", "sha1", 2, 5, .ReadyForPR, 10⟩]

/-- The branch of the C3 failing input (id 1, behind the default
branch). -/
def branchC3 : Branch :=
  ⟨1, "acme/widgets", "feat-x", "s", 2, 5, .ReadyForPR, 0⟩

/-- An open PR explicitly linked to `branchC3` via `branch_id`. -/
def prLinkedC3 : PullRequest :=
  ⟨10, "acme/widgets", some 1, 7, .Open, "linked PR", 0, 0⟩

/-- An open PR with no branch linkage at all. -/
def prUnlinkedC3 : PullRequest :=
  ⟨11, "acme/widgets", none, 8, .Open, "unlinked PR", 0, 0⟩

/-- Sample branches for the C6 witness. -/
def b2Example : List Branch :=
  [{ id := 7, repo_id := "acme/widgets", name := "feat-x", sha := "s1",
     ahead_by := 3, behind_by := 0, status := .InReview,
     last_commit_date := 5 },
   { id := 8, repo_id := "acme/widgets", name := "main", sha := "s2",
     ahead_by := 0, behind_by := 0, status := .ReadyForPR,
     last_commit_date := 6 }]

/-- Sample branch set overlapping `b2Example` on `main`. -/
def b1Example : List Branch :=
  [{ id := 1, repo_id := "acme/widgets", name := "main", sha := "s0",
     ahead_by := 0, behind_by := 0, status := .ReadyForPR,
     last_commit_date := 1 },
   { id := 2, repo_id := "acme/widgets", name := "old", sha := "sx",
     ahead_by := 1, behind_by := 2, status := .NeedsUpdate,
     last_commit_date := 2 }]

end Overall

namespace Ui

/-- A commit as shown by the dashboard (`wasm-ui/src/lib.rs`, struct
`CommitInfo`). -/
structure CommitInfo where
  sha : String
  message : String
  author_name : String
  author_email : String
  authored_date : String
deriving DecidableEq, Repr

/-- A branch as shown by the dashboard (`wasm-ui/src/lib.rs`, struct
`BranchInfo`). -/
structure BranchInfo where
  name : String
  sha : String
  status : String
  ahead : Nat
  behind : Nat
  last_commit_date : String
  commits : List CommitInfo
deriving DecidableEq, Repr

/-- A pull request as shown by the dashboard (`wasm-ui/src/lib.rs`,
struct `PullRequestInfo`). -/
structure PullRequestInfo where
  number : Nat
  title : String
  state : String
  created_at : String
  updated_at : String
deriving DecidableEq, Repr

/-- A repository entry of the export snapshot as consumed by the
dashboard (`wasm-ui/src/lib.rs`, struct `Repository`). -/
structure Repository where
  id : String
  owner : String
  name : String
  language : String
  last_push : String
  branches : List BranchInfo
  pull_requests : List PullRequestInfo
  unmerged_count : Nat
  pr_count : Nat
deriving DecidableEq, Repr

/-- The local scan status as consumed by the dashboard
(`wasm-ui/src/lib.rs`, struct `LocalRepoStatus`). -/
structure LocalRepoStatus where
  id : Int
  repo_id : String
  local_path : String
  current_branch : Option String
  uncommitted_files : Nat
  unpushed_commits : Nat
  behind_commits : Nat
  is_dirty : Bool
  last_checked : String
deriving DecidableEq, Repr

/-- The Priority Scorer (`wasm-ui/src/lib.rs`,
`calculate_repo_status_priority`, lines 1848-1887): traffic-light
priority, first match wins.  Note the second check returns 0 for *any*
branch with `ahead > 0 || behind > 0`, so the `unmerged_count` check for
priority 2 can only fire when `unmerged_count` disagrees with the branch
list. -/
def calculate_repo_status_priority (repo : Repository)
    (local_status : Option LocalRepoStatus) : Nat :=
  if (match local_status with
      | some status =>
        decide (status.unpushed_commits > 0) ||
          decide (status.behind_commits > 0)
      | none => false) then 0
  else if repo.branches.any
      (fun branch => decide (branch.ahead > 0) || decide (branch.behind > 0))
    then 0
  else if (match local_status with
      | some status => decide (status.uncommitted_files > 0)
      | none => false) then 1
  else if repo.unmerged_count > 0 then 2
  else 3

/-- A repository whose only pending work is one stale unmerged branch
(ahead 3, behind 0), with `unmerged_count` computed from it. -/
def staleRepo : Repository :=
  { id := "acme/widgets", owner := "acme", name := "widgets",
    language := "Rust", last_push := "2025-01-01",
    branches := [⟨"feat-x", "s1", "ReadyForPR", 3, 0, "4 weeks ago", []⟩],
    pull_requests := [], unmerged_count := 1, pr_count := 0 }

/-- A completely clean local checkout. -/
def cleanLocal : LocalRepoStatus :=
  ⟨1, "acme/widgets", "/home/u/github/acme/widgets", some "main", 0, 0, 0,
   false, "2025-01-02"⟩

/-- A repository with nothing pending. -/
def greenRepo : Repository :=
  { id := "acme/done", owner := "acme", name := "done",
    language := "Rust", last_push := "2025-01-01", branches := [],
    pull_requests := [], unmerged_count := 0, pr_count := 0 }

end Ui

namespace Overall

/-- **C5.** `classify_branch_status` is a total function returning one of
`ReadyForPR`, `InReview`, `NeedsUpdate` — never `HasConflicts` or
`ReadyToMerge` — and on the default branch it returns `ReadyForPR`. -/
theorem classify_total_and_default (branch : Branch) (prs : List PullRequest)
    (default_branch : String) :
    (classify_branch_status branch prs default_branch = .ReadyForPR ∨
     classify_branch_status branch prs default_branch = .InReview ∨
     classify_branch_status branch prs default_branch = .NeedsUpdate) ∧
    (branch.name = default_branch →
      classify_branch_status branch prs default_branch = .ReadyForPR) := by
  constructor
  · unfold classify_branch_status
    split
    · exact Or.inl rfl
    · split
      · split
        · split
          · exact Or.inr (Or.inr rfl)
          · exact Or.inr (Or.inl rfl)
        · split
          · exact Or.inl rfl
          · exact Or.inl rfl
      · exact Or.inl rfl
  · intro h
    unfold classify_branch_status
    simp [h]

/-- Membership after `add_repo_to_group`. -/
theorem mem_add_repo_to_group (x : String × Int) (r : String) (g : Int)
    (tbl : RepoGroups) :
    x ∈ add_repo_to_group r g tbl ↔ x ∈ tbl ∨ x = (r, g) := by
  unfold add_repo_to_group
  split
  · rename_i hmem
    constructor
    · exact fun h => Or.inl h
    · rintro (h | h)
      · exact h
      · rw [h]
        exact hmem
  · simp [List.mem_append]

/-- Membership after `move_repo_to_group`. -/
theorem mem_move_repo_to_group (x : String × Int) (r : String) (g : Int)
    (tbl : RepoGroups) :
    x ∈ move_repo_to_group r g tbl ↔ (x ∈ tbl ∧ x.1 ≠ r) ∨ x = (r, g) := by
  unfold move_repo_to_group
  simp [List.mem_append, List.mem_filter]

/-- Membership after `remove_repo_from_all_groups`. -/
theorem mem_remove_repo_from_all_groups (x : String × Int) (r : String)
    (tbl : RepoGroups) :
    x ∈ remove_repo_from_all_groups r tbl ↔ x ∈ tbl ∧ x.1 ≠ r := by
  unfold remove_repo_from_all_groups
  simp [List.mem_filter]

/-- Helper: one group-membership operation preserves "at most one group"
for `R`, provided an `add` targeting `R` only fires when `R` is ungrouped
or already in the target group. -/
theorem applyGroupOp_preserves_single (R : String) (op : GroupOp)
    (tbl : RepoGroups) (h0 : inAtMostOneGroup R tbl)
    (hadd : ∀ g, op = .add R g → ((∀ g', (R, g') ∉ tbl) ∨ (R, g) ∈ tbl)) :
    inAtMostOneGroup R (applyGroupOp op tbl) := by
  cases op with
  | add r g =>
    intro a b ha hb
    simp only [applyGroupOp, mem_add_repo_to_group, Prod.mk.injEq] at ha hb
    rcases ha with ha | ⟨haR, hag⟩
    · rcases hb with hb | ⟨hbR, hbg⟩
      · exact h0 a b ha hb
      · rcases hadd g (by rw [hbR]) with hun | hmem
        · exact absurd ha (hun a)
        · rw [hbg]
          exact h0 a g ha hmem
    · rcases hb with hb | ⟨hbR, hbg⟩
      · rcases hadd g (by rw [haR]) with hun | hmem
        · exact absurd hb (hun b)
        · rw [hag]
          exact (h0 b g hb hmem).symm
      · rw [hag, hbg]
  | move r g =>
    intro a b ha hb
    simp only [applyGroupOp, mem_move_repo_to_group, Prod.mk.injEq] at ha hb
    rcases ha with ⟨ha, haR⟩ | ⟨haR, hag⟩
    · rcases hb with ⟨hb, _⟩ | ⟨hbR, _⟩
      · exact h0 a b ha hb
      · exact absurd hbR haR
    · rcases hb with ⟨_, hbR⟩ | ⟨_, hbg⟩
      · exact absurd haR hbR
      · rw [hag, hbg]
  | remove r =>
    intro a b ha hb
    rw [applyGroupOp, mem_remove_repo_from_all_groups] at ha hb
    exact h0 a b ha.1 hb.1

/-- **C1 (counterexample).** Starting ungrouped, two `addRepoToGroup`
calls targeting different groups leave the repository in two groups at
once: the claim as stated fails on `add_repo_to_group`
(`INSERT OR IGNORE` does not remove the old membership). -/
theorem group_single_membership_counterexample :
    inAtMostOneGroup "acme/widgets" ([] : RepoGroups) ∧
    ¬ inAtMostOneGroup "acme/widgets"
        (applyGroupOps
          [GroupOp.add "acme/widgets" 1, GroupOp.add "acme/widgets" 2]
          []) := by
  constructor
  · intro g g' hg _
    simp at hg
  · intro h
    have h12 : (1 : Int) = 2 := h 1 2 (by decide) (by decide)
    exact absurd h12 (by decide)

/-- **C1 (amended).** For every repository R and any sequence of
`addRepoToGroup` / `moveRepoToGroup` / `removeRepoFromAllGroups` calls
starting from a state where R is in at most one group, R belongs to at
most one group after every operation, *provided* each `addRepoToGroup`
targeting R is issued while R is ungrouped or already a member of the
target group; an unrestricted `addRepoToGroup` can place R in a second
group. -/
theorem group_single_membership_amended (R : String) (tbl : RepoGroups)
    (ops : List GroupOp) (h0 : inAtMostOneGroup R tbl)
    (hsafe : safeSeq R tbl ops) :
    inAtMostOneGroup R (applyGroupOps ops tbl) := by
  induction ops generalizing tbl with
  | nil => exact h0
  | cons op rest ih =>
    rcases hsafe with ⟨hadd, hrest⟩
    exact ih (applyGroupOp op tbl)
      (applyGroupOp_preserves_single R op tbl h0 hadd) hrest

/-- Witness for C1's amended theorem at a concrete safe sequence. -/
theorem group_single_membership_amended_witness :
    inAtMostOneGroup "acme/widgets"
      (applyGroupOps
        [GroupOp.add "acme/widgets" 1, GroupOp.move "acme/widgets" 2,
         GroupOp.remove "acme/widgets"]
        []) := by
  apply group_single_membership_amended
  · intro g g' hg _
    simp at hg
  · refine ⟨?_, ?_, ?_, trivial⟩
    · intro g hg
      left
      intro g' hmem
      simp at hmem
    · intro g hg
      exact GroupOp.noConfusion hg
    · intro g hg
      exact GroupOp.noConfusion hg

/-- Witness for C5: the theorem applied at a concrete input, its
hypothesis discharged there. -/
theorem classify_total_and_default_witness :
    classify_branch_status branchMain [] "main" = .ReadyForPR :=
  (classify_total_and_default branchMain [] "main").2 rfl

/-- Helper: saving a branch whose `(repo_id, name)` key collides with no
retained row appends it to the repository's row set. -/
theorem filter_save_branch (rid : String) (b : Branch) (t : BranchTable)
    (hb : b.repo_id = rid)
    (hkeep : ∀ r ∈ t.rows, r.repo_id = rid → r.name ≠ b.name) :
    (save_branch b t).rows.filter (fun r => r.repo_id = rid)
      = t.rows.filter (fun r => r.repo_id = rid) ++ [{ b with id := t.nextId }] := by
  unfold save_branch
  rw [List.filter_append]
  have h2 : [{ b with id := t.nextId }].filter (fun r => r.repo_id = rid)
      = [{ b with id := t.nextId }] := by
    simp [hb]
  rw [h2]
  congr 1
  rw [List.filter_filter]
  apply List.filter_congr
  intro r hr
  by_cases hrid : r.repo_id = rid
  · have hname := hkeep r hr hrid
    simp [hrid, hb, hname]
  · simp [hrid]

/-- Helper: the repository's rows after a fold of `save_branch` over a
branch list with pairwise-distinct names, none colliding with a retained
row. -/
theorem filter_foldl_save_branch (rid : String) (bs : List Branch)
    (t : BranchTable)
    (hall : ∀ b ∈ bs, b.repo_id = rid)
    (hnd : (bs.map (fun b => b.name)).Nodup)
    (hpre : ∀ r ∈ t.rows, r.repo_id = rid →
      r.name ∉ bs.map (fun b => b.name)) :
    ((bs.foldl (fun t b => save_branch b t) t).rows.filter
        (fun r => r.repo_id = rid)).map branchData
      = (t.rows.filter (fun r => r.repo_id = rid)).map branchData ++
        bs.map branchData := by
  induction bs generalizing t with
  | nil => simp
  | cons b rest ih =>
    have hb : b.repo_id = rid := hall b (List.mem_cons_self b rest)
    have hkeep : ∀ r ∈ t.rows, r.repo_id = rid → r.name ≠ b.name := by
      intro r hr hrid heq
      exact hpre r hr hrid (by
        simp only [List.map_cons, List.mem_cons]
        exact Or.inl heq)
    have hnd' : (rest.map (fun b => b.name)).Nodup := by
      simp only [List.map_cons, List.nodup_cons] at hnd
      exact hnd.2
    have hbname : b.name ∉ rest.map (fun b => b.name) := by
      simp only [List.map_cons, List.nodup_cons] at hnd
      exact hnd.1
    have hall' : ∀ x ∈ rest, x.repo_id = rid :=
      fun x hx => hall x (List.mem_cons_of_mem b hx)
    have hpre' : ∀ r ∈ (save_branch b t).rows, r.repo_id = rid →
        r.name ∉ rest.map (fun b => b.name) := by
      intro r hr hrid
      unfold save_branch at hr
      rcases List.mem_append.mp hr with hr' | hr'
      · have hrt := List.mem_of_mem_filter hr'
        have := hpre r hrt hrid
        simp only [List.map_cons, List.mem_cons] at this
        intro hc
        exact this (Or.inr hc)
      · simp only [List.mem_singleton] at hr'
        rw [hr']
        exact hbname
    rw [List.foldl_cons, ih (save_branch b t) hall' hnd' hpre',
        filter_save_branch rid b t hb hkeep]
    simp [branchData, List.map_append]

/-- Helper: clearing a repository leaves it with no rows. -/
theorem filter_clear_branches (rid : String) (tbl : BranchTable) :
    (clear_branches_for_repo rid tbl).rows.filter
      (fun r => r.repo_id = rid) = [] := by
  unfold clear_branches_for_repo
  rw [List.filter_filter, List.filter_eq_nil_iff]
  intro r _
  simp

/-- **C6.** Replace-not-merge: after `replaceBranches repoId B2` following
an earlier `replaceBranches repoId B1`, querying branches for `repoId`
returns exactly the branch set `B2` (compared column-by-column, ignoring
the synthetic rowid), regardless of the starting table, of `B1`, and of
any overlap between `B1` and `B2`. -/
theorem replace_branches_replaces (repo_id : String) (tbl : BranchTable)
    (b1 b2 : List Branch)
    (h2all : ∀ b ∈ b2, b.repo_id = repo_id)
    (h2nd : (b2.map (fun b => b.name)).Nodup) :
    ((get_branches_for_repo repo_id
        (replaceBranches repo_id b2
          (replaceBranches repo_id b1 tbl))).map branchData).Perm
      (b2.map branchData) := by
  set t1 : BranchTable := replaceBranches repo_id b1 tbl with ht1
  have hpre : ∀ r ∈ (clear_branches_for_repo repo_id t1).rows,
      r.repo_id = repo_id → r.name ∉ b2.map (fun b => b.name) := by
    intro r hr hrid
    unfold clear_branches_for_repo at hr
    have := List.of_mem_filter hr
    simp only [ne_eq, decide_not, Bool.not_eq_true', decide_eq_false_iff_not]
      at this
    exact absurd hrid this
  have hfil :
      ((replaceBranches repo_id b2 t1).rows.filter
          (fun r => r.repo_id = repo_id)).map branchData
        = b2.map branchData := by
    unfold replaceBranches
    rw [filter_foldl_save_branch repo_id b2 _ h2all h2nd hpre,
        filter_clear_branches]
    simp
  have hperm :
      (get_branches_for_repo repo_id (replaceBranches repo_id b2 t1)).Perm
        ((replaceBranches repo_id b2 t1).rows.filter
          (fun r => r.repo_id = repo_id)) := by
    unfold get_branches_for_repo
    exact List.mergeSort_perm _ _
  have h := hperm.map branchData
  rw [hfil] at h
  exact h

/-- **C7.** `create_pull_request` treats a "PR already exists" failure of
the underlying `gh` command as success: when the command fails and its
stderr reports that a pull request already exists (with the existing PR's
URL on the last line, as `gh` prints it), the function returns `Ok` with
that URL; a command failure not reporting an existing PR returns an
error. -/
theorem create_pull_request_already_exists_ok (repo_id branch_name : String)
    (title body : Option String) (out : CmdOut)
    (hrid : strHas repo_id "/" = true) :
    (out.success = false → strHas out.stderr "already exists" = true →
      ∀ url_line, (rustLines out.stderr).getLast? = some url_line →
        strLeadsWith (strTrim url_line) "https://github.com" = true →
        create_pull_request repo_id branch_name title body out =
          .ok (strTrim url_line)) ∧
    (out.success = false → strHas out.stderr "already exists" = false →
      ∃ e, create_pull_request repo_id branch_name title body out =
        .error e) := by
  constructor
  · intro hs hae url_line hl hurl
    simp [create_pull_request, hrid, hs, hae, hl, hurl]
  · intro hs hae
    exact ⟨"Failed to create PR for branch " ++ branch_name ++ ": " ++
        out.stderr,
      by simp [create_pull_request, hrid, hs, hae]⟩

/-- Witness for C7 at a concrete command output. -/
theorem create_pull_request_already_exists_ok_witness :
    create_pull_request "acme/widgets" "feat-x" none none outAlreadyExists =
      .ok (strTrim "https://github.com/acme/widgets/pull/7") :=
  (create_pull_request_already_exists_ok "acme/widgets" "feat-x" none none
      outAlreadyExists (by decide)).1
    (by decide) (by decide)
    "https://github.com/acme/widgets/pull/7" (by decide) (by decide)

/-- Helper: the default branch's divergence is `(0, 0)`. -/
theorem branch_divergence_default (default_branch : String)
    (cmp : String → Except String (Nat × Nat)) :
    branch_divergence default_branch cmp default_branch = (0, 0) := by
  simp [branch_divergence]

/-- Helper: a failed comparison yields divergence `(0, 0)`. -/
theorem branch_divergence_error (default_branch : String)
    (cmp : String → Except String (Nat × Nat)) (name : String) (e : String)
    (he : cmp name = .error e) :
    branch_divergence default_branch cmp name = (0, 0) := by
  unfold branch_divergence
  split
  · rfl
  · rw [he]

/-- Helper: C8 property for the recursion at any starting index. -/
theorem fetch_branches_go_recovers (repo_id default_branch : String)
    (commitDate : String → Except String Int)
    (cmp : String → Except String (Nat × Nat))
    (ghBranches : List GhBranch) (idx : Nat)
    (hdates : ∀ gb ∈ ghBranches, ∃ d, commitDate gb.sha = .ok d) :
    ∃ bs, fetch_branches_go repo_id default_branch commitDate cmp idx
        ghBranches = .ok bs ∧
      ∀ b ∈ bs,
        (b.name = default_branch → b.ahead_by = 0 ∧ b.behind_by = 0) ∧
        (∀ e, cmp b.name = .error e →
          b.ahead_by = 0 ∧ b.behind_by = 0) := by
  induction ghBranches generalizing idx with
  | nil => exact ⟨[], rfl, by simp⟩
  | cons gb rest ih =>
    obtain ⟨d, hd⟩ := hdates gb (List.mem_cons_self gb rest)
    obtain ⟨tail, htail, hprop⟩ :=
      ih (idx + 1) (fun x hx => hdates x (List.mem_cons_of_mem gb hx))
    refine ⟨(⟨idx, repo_id, gb.name, gb.sha,
        (branch_divergence default_branch cmp gb.name).1,
        (branch_divergence default_branch cmp gb.name).2,
        .ReadyForPR, d⟩ : Branch) :: tail, ?_, ?_⟩
    · unfold fetch_branches_go
      rw [hd, htail]
    · intro b hb
      rcases List.mem_cons.mp hb with hb' | hb'
      · subst hb'
        constructor
        · intro hdef
          simp only at hdef
          simp [hdef, branch_divergence_default]
        · intro e he
          simp only
          rw [branch_divergence_error default_branch cmp gb.name e he]
          exact ⟨rfl, rfl⟩
      · exact hprop b hb'

/-- **C8.** `fetch_branches` never propagates an error of the
branch-comparison step: whenever the per-branch commit-date lookups
succeed, the fetch succeeds regardless of `cmp`; the branch named like
the default branch is returned with `ahead_by = 0` and `behind_by = 0`,
and any branch whose comparison against the default branch fails is
likewise returned with `ahead_by = 0` and `behind_by = 0`. -/
theorem fetch_branches_comparison_error_recovered
    (repo_id default_branch : String)
    (commitDate : String → Except String Int)
    (cmp : String → Except String (Nat × Nat))
    (ghBranches : List GhBranch)
    (hdates : ∀ gb ∈ ghBranches, ∃ d, commitDate gb.sha = .ok d) :
    ∃ bs, fetch_branches repo_id default_branch commitDate cmp ghBranches
        = .ok bs ∧
      ∀ b ∈ bs,
        (b.name = default_branch → b.ahead_by = 0 ∧ b.behind_by = 0) ∧
        (∀ e, cmp b.name = .error e →
          b.ahead_by = 0 ∧ b.behind_by = 0) :=
  fetch_branches_go_recovers repo_id default_branch commitDate cmp
    ghBranches 0 hdates

/-- Witness for C8: a repository whose only non-default branch fails the
comparison; the fetch still succeeds and reports zero divergence. -/
theorem fetch_branches_comparison_error_recovered_witness :
    ∃ bs, fetch_branches "acme/widgets" "main" (fun _ => .ok 10)
        (fun _ => .error "comparison failed")
        [⟨"main", "s0"⟩, ⟨"feat-x", "s1"⟩] = .ok bs ∧
      ∀ b ∈ bs,
        (b.name = "main" → b.ahead_by = 0 ∧ b.behind_by = 0) ∧
        (∀ e, (fun _ => Except.error "comparison failed" :
            String → Except String (Nat × Nat)) b.name = .error e →
          b.ahead_by = 0 ∧ b.behind_by = 0) :=
  fetch_branches_comparison_error_recovered "acme/widgets" "main"
    (fun _ => .ok 10) (fun _ => .error "comparison failed")
    [⟨"main", "s0"⟩, ⟨"feat-x", "s1"⟩]
    (fun _ _ => ⟨10, rfl⟩)

/-- **C2.** Evaluation of the Scan pipeline at a failing input: the
fetched branch `feat-x` (behind the default branch, with an open PR) is
persisted with the hardcoded status `ReadyForPR`, while re-running the
Branch Status Classifier on the same freshly fetched branch and PRs
yields `NeedsUpdate`.  The pipeline (`main.rs`, Scan) never invokes
`classify_branch_status`, so the persisted status is not the classifier's
result. -/
theorem scan_persists_unclassified_status :
    fetch_branches "acme/widgets" "main" (fun _ => .ok 10)
        (fun _ => .ok (2, 5)) ghBranchesC2 = .ok branchesC2fetched ∧
    get_branches_for_repo "acme/widgets"
        (scan_repo "acme/widgets" branchesC2fetched prsC2 ⟨[], 0⟩
          ⟨[], 0⟩).1
      = [⟨0, "acme/widgets", "feat-x", "sha1", 2, 5, .ReadyForPR, 10⟩] ∧
    classify_branch_status
        ⟨0, "acme/widgets", "feat-x", "sha1", 2, 5, .ReadyForPR, 10⟩
        prsC2 "main" = .NeedsUpdate ∧
    BranchStatus.ReadyForPR ≠ BranchStatus.NeedsUpdate := by
  refine ⟨rfl, ?_, by decide, by decide⟩
  unfold get_branches_for_repo
  rw [show ((scan_repo "acme/widgets" branchesC2fetched prsC2 ⟨[], 0⟩
        ⟨[], 0⟩).1.rows.filter (fun r => r.repo_id = "acme/widgets"))
      = [⟨0, "acme/widgets", "feat-x", "sha1", 2, 5, .ReadyForPR, 10⟩]
    from by decide]
  simp

/-- **C3.** Evaluation of the classifier at a failing input: the PR whose
`branch_id` explicitly refers to the branch is *ignored* (the branch,
behind by 5 with an open linked PR, classifies as `ReadyForPR` instead of
`NeedsUpdate`), while a PR with `branch_id = none` — linked to no branch
— *is* used to decide the status.  The lookup
`prs.iter().find(|pr| pr.branch_id.is_none())` selects by absence of
linkage, contradicting the claim (and the code's own "match by branch
name" comment). -/
theorem classify_ignores_explicit_linkage :
    prLinkedC3.branch_id = some branchC3.id ∧
    classify_branch_status branchC3 [prLinkedC3] "main" = .ReadyForPR ∧
    prUnlinkedC3.branch_id = none ∧
    classify_branch_status branchC3 [prUnlinkedC3] "main" = .NeedsUpdate := by
  decide

/-- Witness for C6 at concrete overlapping branch sets. -/
theorem replace_branches_replaces_witness :
    ((get_branches_for_repo "acme/widgets"
        (replaceBranches "acme/widgets" b2Example
          (replaceBranches "acme/widgets" b1Example
            ⟨[], 0⟩))).map branchData).Perm
      (b2Example.map branchData) :=
  replace_branches_replaces "acme/widgets" ⟨[], 0⟩ b1Example b2Example
    (by intro b hb; simp [b2Example] at hb; rcases hb with h | h <;> rw [h])
    (by simp [b2Example])

/-- Helper: a path with at least two components has an extractable
identity. -/
theorem extract_repo_id_some_of_len (components : List String)
    (h : 2 ≤ components.length) :
    ∃ r, extract_repo_id components = some r := by
  have hl : components.reverse.length = components.length :=
    List.length_reverse components
  rcases hrev : components.reverse with _ | ⟨n, _ | ⟨o, rest⟩⟩
  · rw [hrev] at hl
    simp at hl
    omega
  · rw [hrev] at hl
    simp at hl
    omega
  · refine ⟨o ++ "/" ++ n, ?_⟩
    unfold extract_repo_id
    rw [hrev]

/-- Helper: a path with fewer than two components has no extractable
identity. -/
theorem extract_repo_id_none_of_len (components : List String)
    (h : components.length < 2) :
    extract_repo_id components = none := by
  have hl : components.reverse.length = components.length :=
    List.length_reverse components
  rcases hrev : components.reverse with _ | ⟨n, _ | ⟨o, rest⟩⟩
  · unfold extract_repo_id
    rw [hrev]
  · unfold extract_repo_id
    rw [hrev]
  · rw [hrev] at hl
    simp at hl
    omega

/-- **C9.** `get_repo_status` derives the repository identity solely from
the last two components of the checkout path: it succeeds exactly when
the path has at least two components; any two paths sharing the same last
two components yield the same identity; and saving a later scan's status
for the same identity replaces the earlier row, whatever the checkout
paths were. -/
theorem get_repo_status_identity_last_two_components :
    (∀ (components : List String) (path_str : String)
        (branchOut statusOut : CmdOut)
        (upstreamOf revListOf : String → CmdOut) (now : Int),
      (∃ s, get_repo_status components path_str branchOut statusOut
          upstreamOf revListOf now = .ok s) ↔ 2 ≤ components.length) ∧
    (∀ (pre1 pre2 : List String) (owner name : String),
      extract_repo_id (pre1 ++ [owner, name]) =
        extract_repo_id (pre2 ++ [owner, name])) ∧
    (∀ (s1 s2 : LocalRepoStatus) (tbl : List LocalRepoStatus),
      s1.repo_id = s2.repo_id →
      get_local_repo_status s2.repo_id
        (save_local_repo_status s2 (save_local_repo_status s1 tbl)) =
        some s2) := by
  refine ⟨?_, ?_, ?_⟩
  · intro components path_str branchOut statusOut upstreamOf revListOf now
    constructor
    · rintro ⟨st, hst⟩
      by_contra hlen
      have hnone := extract_repo_id_none_of_len components (by omega)
      unfold get_repo_status at hst
      rw [hnone] at hst
      exact nomatch hst
    · intro h
      obtain ⟨rid, hrid⟩ := extract_repo_id_some_of_len components h
      unfold get_repo_status
      rw [hrid]
      exact ⟨_, rfl⟩
  · intro pre1 pre2 owner name
    have h : ∀ pre : List String,
        extract_repo_id (pre ++ [owner, name]) =
          some (owner ++ "/" ++ name) := by
      intro pre
      unfold extract_repo_id
      rw [List.reverse_append]
      rfl
    rw [h pre1, h pre2]
  · intro s1 s2 tbl h
    unfold get_local_repo_status save_local_repo_status
    rw [h]
    simp only [List.filter_append]
    have hs2 : [s2].filter (fun r => r.repo_id = s2.repo_id) = [s2] := by
      simp
    have hs1 : [s1].filter (fun r => r.repo_id ≠ s2.repo_id) = [] := by
      simp [h]
    have htbl :
        (((tbl.filter (fun r => r.repo_id ≠ s2.repo_id)).filter
            (fun r => r.repo_id ≠ s2.repo_id)).filter
          (fun r => r.repo_id = s2.repo_id)) = [] := by
      rw [List.filter_eq_nil_iff]
      intro a ha
      have hpa := List.of_mem_filter ha
      simp only [ne_eq, decide_not, Bool.not_eq_true',
        decide_eq_false_iff_not] at hpa
      simp [hpa]
    rw [hs1, htbl]
    simp

/-- Witness for C9 at a concrete five-component checkout path. -/
theorem get_repo_status_identity_last_two_components_witness :
    ∃ s, get_repo_status ["home", "u", "github", "acme", "widgets"]
        "/home/u/github/acme/widgets" ⟨true, "main\n", ""⟩ ⟨true, "", ""⟩
        (fun _ => ⟨true, "origin/main\n", ""⟩)
        (fun _ => ⟨true, "0 0\n", ""⟩) 0 = .ok s :=
  (get_repo_status_identity_last_two_components.1
      ["home", "u", "github", "acme", "widgets"]
      "/home/u/github/acme/widgets" ⟨true, "main\n", ""⟩ ⟨true, "", ""⟩
      (fun _ => ⟨true, "origin/main\n", ""⟩)
      (fun _ => ⟨true, "0 0\n", ""⟩) 0).mpr (by decide)

/-- **C10.** For a checkout whose HEAD is detached (current branch
unknown: the branch lookup exits unsuccessfully) or whose current branch
has no configured upstream (the upstream lookup exits unsuccessfully),
`get_repo_status` reports `unpushed_commits = 0` and
`behind_commits = 0`, and its `is_dirty` flag is true exactly when at
least one uncommitted file was counted. -/
theorem get_repo_status_no_upstream_or_detached
    (components : List String) (path_str : String)
    (branchOut statusOut : CmdOut)
    (upstreamOf revListOf : String → CmdOut) (now : Int)
    (hlen : 2 ≤ components.length)
    (hno : branchOut.success = false ∨
      (upstreamOf (strTrim branchOut.stdout)).success = false) :
    ∃ s, get_repo_status components path_str branchOut statusOut
        upstreamOf revListOf now = .ok s ∧
      s.unpushed_commits = 0 ∧ s.behind_commits = 0 ∧
      (s.is_dirty = true ↔ 0 < s.uncommitted_files) := by
  obtain ⟨rid, hrid⟩ := extract_repo_id_some_of_len components hlen
  have hdiv : (match get_current_branch branchOut with
      | some branch => get_ahead_behind branch upstreamOf revListOf
      | none => ((0 : Nat), (0 : Nat))) = (0, 0) := by
    rcases hno with hno | hno
    · simp [get_current_branch, hno]
    · by_cases hbs : branchOut.success
      · simp [get_current_branch, hbs, get_ahead_behind, hno]
      · simp [get_current_branch, hbs]
  unfold get_repo_status
  rw [hrid]
  simp only [hdiv]
  exact ⟨_, rfl, rfl, rfl, by simp⟩

/-- Witness for C10 at a concrete detached-HEAD checkout. -/
theorem get_repo_status_no_upstream_or_detached_witness :
    ∃ s, get_repo_status ["acme", "widgets"] "acme/widgets"
        ⟨false, "", ""⟩ ⟨true, " M src/main.rs\n", ""⟩
        (fun _ => ⟨true, "", ""⟩) (fun _ => ⟨true, "", ""⟩) 0 = .ok s ∧
      s.unpushed_commits = 0 ∧ s.behind_commits = 0 ∧
      (s.is_dirty = true ↔ 0 < s.uncommitted_files) :=
  get_repo_status_no_upstream_or_detached ["acme", "widgets"]
    "acme/widgets" ⟨false, "", ""⟩ ⟨true, " M src/main.rs\n", ""⟩
    (fun _ => ⟨true, "", ""⟩) (fun _ => ⟨true, "", ""⟩) 0
    (by decide) (Or.inl rfl)

end Overall

namespace Ui

/-- **C4 (counterexample).** A repository with only a stale unmerged
branch (ahead of default, not behind) and a clean local checkout scores
priority 0, not the claimed 2: the any-divergence check
(`branch.ahead > 0 || branch.behind > 0`) fires before the
`unmerged_count` check ever runs. -/
theorem priority_examples_counterexample :
    calculate_repo_status_priority staleRepo (some cleanLocal) = 0 ∧
    (0 : Nat) ≠ 2 := by
  decide

/-- **C4 (amended).** The priority function maps the spec's example
configurations as follows: a repository with a branch diverging from the
default branch (in particular an open-PR branch behind it) and a clean
local checkout scores 0 — in particular whenever any branch has
`ahead > 0`; a repository with only uncommitted local files and no branch
divergence scores 1; a repository with only a stale unmerged branch
(ahead of default, not behind) and clean local state scores 0 (not 2: the
any-divergence rule captures it first); a repository with nothing pending
scores 3. -/
theorem priority_examples_amended (repo : Repository)
    (ls : Option LocalRepoStatus) :
    ((∃ b ∈ repo.branches, b.ahead > 0 ∨ b.behind > 0) →
      calculate_repo_status_priority repo ls = 0) ∧
    (∀ s, ls = some s → s.unpushed_commits = 0 → s.behind_commits = 0 →
      s.uncommitted_files > 0 →
      (∀ b ∈ repo.branches, b.ahead = 0 ∧ b.behind = 0) →
      calculate_repo_status_priority repo ls = 1) ∧
    ((∃ b ∈ repo.branches, b.ahead > 0) →
      calculate_repo_status_priority repo ls = 0) ∧
    ((∀ b ∈ repo.branches, b.ahead = 0 ∧ b.behind = 0) →
      repo.unmerged_count = 0 →
      (∀ s, ls = some s → s.unpushed_commits = 0 ∧ s.behind_commits = 0 ∧
        s.uncommitted_files = 0) →
      calculate_repo_status_priority repo ls = 3) := by
  have hred : ∀ h : (∃ b ∈ repo.branches, b.ahead > 0 ∨ b.behind > 0),
      calculate_repo_status_priority repo ls = 0 := by
    intro h
    have hany : repo.branches.any
        (fun branch => decide (branch.ahead > 0) ||
          decide (branch.behind > 0)) = true := by
      rw [List.any_eq_true]
      obtain ⟨b, hb, hd⟩ := h
      exact ⟨b, hb, by rcases hd with hd | hd <;> simp [hd]⟩
    unfold calculate_repo_status_priority
    split
    · rfl
    · simp [hany]
  refine ⟨hred, ?_, fun h => hred (by
      obtain ⟨b, hb, ha⟩ := h
      exact ⟨b, hb, Or.inl ha⟩), ?_⟩
  · intro s hls h1 h2 h3 hbr
    subst hls
    have hany : repo.branches.any
        (fun branch => decide (branch.ahead > 0) ||
          decide (branch.behind > 0)) = false := by
      rw [List.any_eq_false]
      intro b hb
      have := hbr b hb
      simp [this.1, this.2]
    simp [calculate_repo_status_priority, h1, h2, h3, hany]
  · intro hbr hum hclean
    have hany : repo.branches.any
        (fun branch => decide (branch.ahead > 0) ||
          decide (branch.behind > 0)) = false := by
      rw [List.any_eq_false]
      intro b hb
      have := hbr b hb
      simp [this.1, this.2]
    cases ls with
    | none => simp [calculate_repo_status_priority, hany, hum]
    | some s =>
      obtain ⟨h1, h2, h3⟩ := hclean s rfl
      simp [calculate_repo_status_priority, hany, hum, h1, h2, h3]

/-- Witness for C4's amended theorem at a concrete input. -/
theorem priority_examples_amended_witness :
    calculate_repo_status_priority greenRepo none = 3 :=
  (priority_examples_amended greenRepo none).2.2.2
    (by intro b hb; simp [greenRepo] at hb) rfl
    (fun s hs => nomatch hs)

end Ui
